import Mathlib

/-!
Shallow embedding of `src/highperformancebitmap/genlargeimage/genlargeimage.py`.

The script allocates a WIDTH×HEIGHT white RGB canvas (exiting with status 1 on
`MemoryError`), optionally loads a font (falling back to `None` on any failure),
then iterates `for x in range(0, WIDTH, GRID_SIZE): for y in range(0, HEIGHT,
GRID_SIZE)`, deriving a color `(x % 255, (y // 100) % 255, (x + y) % 255)` per
cell, filling the rectangle `[x, y, x + GRID_SIZE, y + GRID_SIZE]` with that
color (fill and outline both equal to the color; Pillow rectangles include both
corner points), drawing the label "x,y" three times when a font is loaded
(twice in white at diagonal offsets ±2, once in black at `(x+50, y+50)`),
printing a progress percentage `current_step / total_steps * 100` whenever
`current_step % 100 == 0`, and finally saving the canvas as a JPEG at quality
60.  Printed percentages are modelled as exact rationals (the script formats a
float with one decimal; the value it formats is the quotient below).  Wall
clock readings (`time.time()`), which only feed the timestamped status lines,
are modelled as an ambient `clock : Nat → Nat` sampled at successive print
points.  Text rasterization is external to the script (Pillow glyph
rendering), so text drawing is modelled as the exact sequence of `draw.text`
calls the script issues rather than as pixels.
-/

/-- Constant `WIDTH = 35000` from the script. -/
def WIDTH : Nat := 35000

/-- Constant `HEIGHT = 30000` from the script. -/
def HEIGHT : Nat := 30000

/-- Constant `GRID_SIZE = 1000` from the script. -/
def GRID_SIZE : Nat := 1000

/-- Constant `FILENAME = "big_image.jpg"` from the script. -/
def FILENAME : String := "big_image.jpg"

/-- An RGB triple, one pixel value. -/
abbrev Color := Nat × Nat × Nat

/-- The white background color the canvas is created with. -/
def whiteColor : Color := (255, 255, 255)

/-- Color derivation from the loop body: `r = x % 255`, `g = (y // 100) % 255`,
`b = (x + y) % 255`. -/
def colorOf (x y : Nat) : Color := (x % 255, (y / 100) % 255, (x + y) % 255)

/-- Python `range(start, stop, step)` for a positive step: the elements
`start, start + step, ...` that are `< stop`; its length is
`⌈(stop - start) / step⌉`. -/
def pyRange (start stop step : Nat) : List Nat :=
  (List.range ((stop - start + step - 1) / step)).map (fun i => start + i * step)

/-- Values of the outer loop variable: `range(0, WIDTH, GRID_SIZE)`. -/
def xValues : List Nat := pyRange 0 WIDTH GRID_SIZE

/-- Values of the inner loop variable: `range(0, HEIGHT, GRID_SIZE)`. -/
def yValues : List Nat := pyRange 0 HEIGHT GRID_SIZE

/-- The grid cells `(x, y)` in the order the nested loop visits them
(outer over x, inner over y). -/
def cellsVisited : List (Nat × Nat) :=
  xValues.flatMap (fun x => yValues.map (fun y => (x, y)))

/-- A canvas: pixel value at each coordinate.  The script mutates one in place;
here each draw call produces the updated function. -/
abbrev Canvas := Nat → Nat → Color

/-- Whether grid coordinate `v` covers raster coordinate `i` along one axis of
a rectangle of side `g`: Pillow rectangles include both endpoints, so the
covered interval is `[v, v + g]` inclusive. -/
def coversAxis (g v i : Nat) : Bool := decide (v ≤ i ∧ i ≤ v + g)

/-- Whether the rectangle drawn for cell `cell` covers pixel `(i, j)`. -/
def coversCell (g : Nat) (cell : Nat × Nat) (i j : Nat) : Bool :=
  coversAxis g cell.1 i && coversAxis g cell.2 j

/-- Effect of `draw.rectangle([x, y, x+g, y+g], fill=color, outline=color)`:
every pixel of the rectangle, border included, takes the cell color. -/
def paintCell (g : Nat) (c : Canvas) (cell : Nat × Nat) : Canvas :=
  fun i j => if coversCell g cell i j then colorOf cell.1 cell.2 else c i j

/-- Denominator of the progress percentage:
`total_steps = (WIDTH // GRID_SIZE + 1) * (HEIGHT // GRID_SIZE + 1)`. -/
def total_steps : Nat := (WIDTH / GRID_SIZE + 1) * (HEIGHT / GRID_SIZE + 1)

/-- One `draw.text(pos, text, fill=fill, font=font)` call. -/
structure TextOp where
  pos : Nat × Nat
  text : String
  fill : String
deriving DecidableEq

/-- The label string `f"{x},{y}"`. -/
def labelOf (x y : Nat) : String := toString x ++ "," ++ toString y

/-- The three `draw.text` calls issued for a cell when a font is loaded:
faux white outline at `(+2, +2)` and `(-2, -2)`, then black at the true
position `(x + 50, y + 50)`. -/
def textCallsFor (x y : Nat) : List TextOp :=
  [⟨(x + 50 + 2, y + 50 + 2), labelOf x y, "white"⟩,
   ⟨(x + 50 - 2, y + 50 - 2), labelOf x y, "white"⟩,
   ⟨(x + 50, y + 50), labelOf x y, "black"⟩]

/-- State carried through the nested drawing loop. -/
structure LoopState where
  currentStep : Nat
  prints : List ℚ
  canvas : Canvas
  textOps : List TextOp

/-- Body of the nested loop for one cell: increment `current_step`, print the
progress percentage when `current_step % 100 == 0`, fill the cell rectangle,
and issue the three text calls when a font is loaded. -/
def loopBody (fontLoaded : Bool) (s : LoopState) (cell : Nat × Nat) : LoopState :=
  { currentStep := s.currentStep + 1,
    prints :=
      if (s.currentStep + 1) % 100 = 0 then
        s.prints ++ [((s.currentStep + 1 : Nat) : ℚ) / (total_steps : ℚ) * 100]
      else s.prints,
    canvas := paintCell GRID_SIZE s.canvas cell,
    textOps :=
      if fontLoaded then s.textOps ++ textCallsFor cell.1 cell.2 else s.textOps }

/-- Loop state before the first iteration: step 0, nothing printed, white
canvas, no text drawn. -/
def initState : LoopState :=
  { currentStep := 0, prints := [], canvas := fun _ _ => whiteColor, textOps := [] }

/-- State after the whole nested loop has run. -/
def finalState (fontLoaded : Bool) : LoopState :=
  cellsVisited.foldl (loopBody fontLoaded) initState

/-- The font object: `ImageFont.truetype("Arial.ttf", 120)`. -/
structure FontRef where
  name : String
  size : Nat
deriving DecidableEq

/-- Font loading with its broad `except:` fallback: on success the Arial font
at size 120, on any failure `None`. -/
def loadFont (ok : Bool) : Option FontRef :=
  if ok then some ⟨"Arial.ttf", 120⟩ else none

/-- Observable outcome of one run of the script. -/
structure RunResult where
  exitCode : Nat
  memoryDiagnostic : Bool
  raster : Option Canvas
  textOps : List TextOp
  progressPrints : List ℚ
  savedFile : Option (String × Nat)
  timestamps : List Nat

/-- One run of the script.  `allocOk` is whether `Image.new` succeeds (its
`MemoryError` handler prints a diagnostic and calls `sys.exit(1)`); `fontOk`
is whether `ImageFont.truetype` succeeds; `clock` supplies the wall-clock
readings used only in timestamped status lines.  On success the script draws
every cell and saves the canvas to `FILENAME` at JPEG quality 60, exiting
normally with status 0. -/
def run (allocOk fontOk : Bool) (clock : Nat → Nat) : RunResult :=
  if allocOk then
    { exitCode := 0,
      memoryDiagnostic := false,
      raster := some (finalState (loadFont fontOk).isSome).canvas,
      textOps := (finalState (loadFont fontOk).isSome).textOps,
      progressPrints := (finalState (loadFont fontOk).isSome).prints,
      savedFile := some (FILENAME, 60),
      timestamps := [clock 0, clock 1, clock 2, clock 3] }
  else
    { exitCode := 1,
      memoryDiagnostic := true,
      raster := none,
      textOps := [],
      progressPrints := [],
      savedFile := none,
      timestamps := [clock 0] }

/-! Characterizations of the loop fold, one observable component at a time. -/

/-- Folding the loop body advances `current_step` by the number of cells. -/
theorem foldl_currentStep (f : Bool) (l : List (Nat × Nat)) (s : LoopState) :
    (l.foldl (loopBody f) s).currentStep = s.currentStep + l.length := by
  induction l generalizing s with
  | nil => simp
  | cons c l ih =>
    rw [List.foldl_cons, ih]
    simp [loopBody]
    omega

/-- The canvas component of the loop fold is the fold of the rectangle fills. -/
theorem foldl_canvas (f : Bool) (l : List (Nat × Nat)) (s : LoopState) :
    (l.foldl (loopBody f) s).canvas = l.foldl (paintCell GRID_SIZE) s.canvas := by
  induction l generalizing s with
  | nil => rfl
  | cons c l ih =>
    rw [List.foldl_cons, List.foldl_cons, ih]
    rfl

/-- The text calls issued by the loop: all cells when the font loaded, none
otherwise. -/
theorem foldl_textOps (f : Bool) (l : List (Nat × Nat)) (s : LoopState) :
    (l.foldl (loopBody f) s).textOps
      = s.textOps ++ (if f = true then l.flatMap (fun c => textCallsFor c.1 c.2) else []) := by
  induction l generalizing s with
  | nil => cases f <;> simp
  | cons c l ih =>
    rw [List.foldl_cons, ih]
    cases f <;> simp [loopBody]

/-- The progress messages printed while folding the loop body: one value
`n / total_steps * 100` for each step number `n` (counted from the incoming
state) that is a multiple of 100. -/
theorem foldl_prints (f : Bool) (l : List (Nat × Nat)) (s : LoopState) :
    (l.foldl (loopBody f) s).prints
      = s.prints ++ (((List.range l.length).map (fun k => s.currentStep + k + 1)).filter
          (fun n => n % 100 = 0)).map (fun n : Nat => (n : ℚ) / (total_steps : ℚ) * 100) := by
  induction l generalizing s with
  | nil => simp
  | cons c l ih =>
    rw [List.foldl_cons, ih]
    have hstep : (loopBody f s c).currentStep = s.currentStep + 1 := rfl
    have hpr : (loopBody f s c).prints
        = if (s.currentStep + 1) % 100 = 0 then
            s.prints ++ [((s.currentStep + 1 : Nat) : ℚ) / (total_steps : ℚ) * 100]
          else s.prints := rfl
    rw [hstep, hpr, List.length_cons, List.range_succ_eq_map, List.map_cons, List.map_map]
    have hmap : (List.map ((fun k => s.currentStep + k + 1) ∘ Nat.succ) (List.range l.length))
        = List.map (fun k => s.currentStep + 1 + k + 1) (List.range l.length) := by
      apply List.map_congr_left
      intro k _
      simp only [Function.comp]
      omega
    rw [hmap]
    simp only [Nat.add_zero]
    by_cases h : (s.currentStep + 1) % 100 = 0
    · rw [if_pos h]
      simp [List.filter_cons, h]
    · rw [if_neg h]
      simp [List.filter_cons, h]

/-- The alternative iteration order from the spec: outer over y, inner over x.
The rectangle fills of a run of the drawing loop in that order, starting from
the white canvas (text drawing aside, which does not depend on the canvas). -/
def fillsYX : Canvas :=
  (yValues.flatMap (fun y => xValues.map (fun x => (x, y)))).foldl
    (paintCell GRID_SIZE) (fun _ _ => whiteColor)

/-- Value of a fold of rectangle fills at one pixel: the pointwise fold of
last-write-wins updates. -/
theorem foldl_paintCell_point (g : Nat) (l : List (Nat × Nat)) (c : Canvas) (i j : Nat) :
    (l.foldl (paintCell g) c) i j
      = l.foldl (fun v cell => if coversCell g cell i j then colorOf cell.1 cell.2 else v) (c i j) := by
  induction l generalizing c with
  | nil => rfl
  | cons a l ih =>
    rw [List.foldl_cons, List.foldl_cons, ih]
    rfl

/-- A fold of guarded overwrites keeps the last value whose guard holds, found
as the first match of the reversed list. -/
theorem foldl_lastMatch {α β : Type} (P : α → Bool) (f : α → β) (l : List α) (v : β) :
    l.foldl (fun acc c => if P c then f c else acc) v
      = ((l.reverse.find? P).map f).getD v := by
  induction l generalizing v with
  | nil => rfl
  | cons a l ih =>
    rw [List.foldl_cons, ih, List.reverse_cons, List.find?_append]
    cases hfind : l.reverse.find? P with
    | some d => simp [Option.or]
    | none =>
      cases hp : P a <;> simp [Option.or, List.find?_cons, hp]

/-- Finding the last element of an x-outer product of grids whose components
satisfy componentwise predicates: the last matching x paired with the last
matching y. -/
theorem findLast_prodXY (xs ys : List Nat) (cx cy : Nat → Bool) :
    ((xs.flatMap (fun x => ys.map (fun y => (x, y)))).reverse.find?
        (fun c => cx c.1 && cy c.2))
      = (xs.reverse.find? cx).bind (fun x => (ys.reverse.find? cy).map (fun y => (x, y))) := by
  induction xs with
  | nil => simp
  | cons x xs ih =>
    rw [List.flatMap_cons, List.reverse_append, List.find?_append, ih]
    have hinner : ((ys.map (fun y => (x, y))).reverse.find? (fun c => cx c.1 && cy c.2))
        = if cx x = true then (ys.reverse.find? cy).map (fun y => (x, y)) else none := by
      rw [List.reverse_map, List.find?_map]
      cases hx : cx x with
      | true =>
        have hcomp : ((fun c : Nat × Nat => cx c.1 && cy c.2) ∘ fun y => (x, y)) = cy := by
          funext y
          simp [Function.comp, hx]
        rw [hcomp]
        simp
      | false =>
        have hnone : List.find? ((fun c : Nat × Nat => cx c.1 && cy c.2) ∘ fun y => (x, y))
            ys.reverse = none := by
          apply List.find?_eq_none.mpr
          intro y _
          simp [Function.comp, hx]
        rw [hnone]
        simp
    rw [hinner, List.reverse_cons, List.find?_append]
    cases hxs : xs.reverse.find? cx with
    | some x0 =>
      cases hy : ys.reverse.find? cy with
      | some y0 => simp [Option.or]
      | none =>
        cases hx : cx x <;> simp [Option.or, hx]
    | none =>
      cases hx : cx x <;> simp [Option.or, List.find?_cons, hx]

/-- Finding the last element of a y-outer product of grids whose components
satisfy componentwise predicates: likewise the last matching x paired with the
last matching y. -/
theorem findLast_prodYX (xs ys : List Nat) (cx cy : Nat → Bool) :
    ((ys.flatMap (fun y => xs.map (fun x => (x, y)))).reverse.find?
        (fun c => cx c.1 && cy c.2))
      = (ys.reverse.find? cy).bind (fun y => (xs.reverse.find? cx).map (fun x => (x, y))) := by
  induction ys with
  | nil => simp
  | cons y ys ih =>
    rw [List.flatMap_cons, List.reverse_append, List.find?_append, ih]
    have hinner : ((xs.map (fun x => (x, y))).reverse.find? (fun c => cx c.1 && cy c.2))
        = if cy y = true then (xs.reverse.find? cx).map (fun x => (x, y)) else none := by
      rw [List.reverse_map, List.find?_map]
      cases hy : cy y with
      | true =>
        have hcomp : ((fun c : Nat × Nat => cx c.1 && cy c.2) ∘ fun x => (x, y)) = cx := by
          funext x
          simp [Function.comp, hy]
        rw [hcomp]
        simp
      | false =>
        have hnone : List.find? ((fun c : Nat × Nat => cx c.1 && cy c.2) ∘ fun x => (x, y))
            xs.reverse = none := by
          apply List.find?_eq_none.mpr
          intro x _
          simp [Function.comp, hy]
        rw [hnone]
        simp
    rw [hinner, List.reverse_cons, List.find?_append]
    cases hys : ys.reverse.find? cy with
    | some y0 =>
      cases hx : xs.reverse.find? cx with
      | some x0 => simp [Option.or]
      | none =>
        cases hy : cy y <;> simp [Option.or, hy]
    | none =>
      cases hy : cy y <;> simp [Option.or, List.find?_cons, hy]

/-- At every pixel, folding the rectangle fills in x-outer order and in
y-outer order gives the same value: the pixel takes the color of the covering
cell with the largest x among covering columns and the largest y among
covering rows, in either order. -/
theorem fills_point_order_independent (i j : Nat) :
    (cellsVisited.foldl (paintCell GRID_SIZE) (fun _ _ => whiteColor)) i j = fillsYX i j := by
  rw [cellsVisited, fillsYX, foldl_paintCell_point, foldl_paintCell_point]
  rw [foldl_lastMatch (fun cell => coversCell GRID_SIZE cell i j)
        (fun cell => colorOf cell.1 cell.2),
      foldl_lastMatch (fun cell => coversCell GRID_SIZE cell i j)
        (fun cell => colorOf cell.1 cell.2)]
  have hxy := findLast_prodXY xValues yValues
    (fun v => coversAxis GRID_SIZE v i) (fun v => coversAxis GRID_SIZE v j)
  have hyx := findLast_prodYX xValues yValues
    (fun v => coversAxis GRID_SIZE v i) (fun v => coversAxis GRID_SIZE v j)
  simp only [coversCell]
  rw [hxy, hyx]
  cases xValues.reverse.find? (fun v => coversAxis GRID_SIZE v i) with
  | none =>
    cases yValues.reverse.find? (fun v => coversAxis GRID_SIZE v j) with
    | none => rfl
    | some y0 => rfl
  | some x0 =>
    cases yValues.reverse.find? (fun v => coversAxis GRID_SIZE v j) with
    | none => rfl
    | some y0 => rfl

/-- Progress output of the loop from the initial state: one value per step
number (1-based, up to the number of cells) that is a multiple of 100. -/
theorem finalState_prints (f : Bool) :
    (finalState f).prints
      = (((List.range cellsVisited.length).map (fun k => k + 1)).filter
          (fun n => n % 100 = 0)).map (fun n : Nat => (n : ℚ) / (total_steps : ℚ) * 100) := by
  rw [finalState, foldl_prints]
  have hmap : List.map (fun k => initState.currentStep + k + 1) (List.range cellsVisited.length)
      = List.map (fun k => k + 1) (List.range cellsVisited.length) := by
    apply List.map_congr_left
    intro k _
    simp [initState]
  rw [hmap]
  simp [initState]

/-- Progress output of a successful run, whether or not the font loaded. -/
theorem run_prints (f : Bool) (clock : Nat → Nat) :
    (run true f clock).progressPrints
      = (((List.range cellsVisited.length).map (fun k => k + 1)).filter
          (fun n => n % 100 = 0)).map (fun n : Nat => (n : ℚ) / (total_steps : ℚ) * 100) := by
  cases f <;> simp only [run, loadFont, if_pos, if_neg] <;> exact finalState_prints _

set_option maxRecDepth 100000 in
/-- The step numbers at which the loop prints progress. -/
theorem progressSteps_concrete :
    ((List.range cellsVisited.length).map (fun k => k + 1)).filter (fun n => n % 100 = 0)
      = [100, 200, 300, 400, 500, 600, 700, 800, 900, 1000] := by rfl

/-- C1: allocation failure is the script's only explicitly handled exit path:
a run prints the memory diagnostic and terminates with exit status 1 exactly
when canvas allocation fails, and every run in which allocation succeeds exits
with status 0 (the guarded `sys.exit(1)` branch is never taken) and saves the
output file. -/
theorem alloc_failure_only_explicit_exit (a f : Bool) (clock : Nat → Nat) :
    (run a f clock).exitCode = (if a = true then 0 else 1) ∧
    (run a f clock).memoryDiagnostic = (!a) ∧
    (run a f clock).savedFile = (if a = true then some (FILENAME, 60) else none) := by
  cases a <;> simp [run]

/-- C2: for every grid coordinate pair visited by the loop, the derived color
is exactly `(x mod 255, (y div 100) mod 255, (x + y) mod 255)` — this variant
divides y by 100 — and each channel value is at most 254, never 255. -/
theorem visited_color_channels_in_range :
    ∀ cell ∈ cellsVisited,
      colorOf cell.1 cell.2
          = (cell.1 % 255, (cell.2 / 100) % 255, (cell.1 + cell.2) % 255) ∧
      (colorOf cell.1 cell.2).1 ≤ 254 ∧
      (colorOf cell.1 cell.2).2.1 ≤ 254 ∧
      (colorOf cell.1 cell.2).2.2 ≤ 254 := by
  intro cell _
  refine ⟨rfl, ?_, ?_, ?_⟩ <;> (simp only [colorOf]; omega)

set_option maxRecDepth 100000 in
/-- Witness for C2 at the first visited cell (0, 0). -/
theorem visited_color_channels_in_range_witness :
    (0, 0) ∈ cellsVisited ∧
    (colorOf 0 0 = (0 % 255, (0 / 100) % 255, (0 + 0) % 255) ∧
     (colorOf 0 0).1 ≤ 254 ∧ (colorOf 0 0).2.1 ≤ 254 ∧ (colorOf 0 0).2.2 ≤ 254) :=
  ⟨by decide, visited_color_channels_in_range (0, 0) (by decide)⟩

set_option maxRecDepth 100000 in
/-- C3: the nested loop draws exactly ⌈WIDTH / GRID_SIZE⌉ * ⌈HEIGHT /
GRID_SIZE⌉ grid cells, which is 35 * 30 = 1050 with the configured
constants. -/
theorem grid_cell_count :
    cellsVisited.length
        = ((WIDTH + GRID_SIZE - 1) / GRID_SIZE) * ((HEIGHT + GRID_SIZE - 1) / GRID_SIZE) ∧
    cellsVisited.length = 35 * 30 := ⟨by rfl, by rfl⟩

set_option maxRecDepth 100000 in
/-- C4 as stated is false on the code: the script divides `current_step` by
`total_steps = (WIDTH // GRID_SIZE + 1) * (HEIGHT // GRID_SIZE + 1) = 1116`,
not by the number of grid cells actually drawn (1050); already the first
progress message (at step 100) prints 100/1116·100 ≈ 9.0, not
100/1050·100 ≈ 9.5. -/
theorem progress_prints_not_over_cells_drawn :
    (run true true (fun _ => 0)).progressPrints
      ≠ (((List.range cellsVisited.length).map (fun k => k + 1)).filter
          (fun n => n % 100 = 0)).map
            (fun n : Nat => (n : ℚ) / (cellsVisited.length : ℚ) * 100) := by
  rw [run_prints, progressSteps_concrete]
  have hlen : cellsVisited.length = 1050 := by rfl
  rw [hlen]
  intro h
  have hh := congrArg List.head? h
  simp only [List.map_cons, List.head?_cons, Option.some.injEq] at hh
  norm_num [total_steps, WIDTH, HEIGHT, GRID_SIZE] at hh

/-- C4 amended: every 100 cells processed the script prints a progress value
equal to `current_step / total_steps * 100`, where the denominator is
`total_steps = (WIDTH // GRID_SIZE + 1) * (HEIGHT // GRID_SIZE + 1) = 1116`
rather than the 1050 cells actually drawn. -/
theorem progress_prints_over_total_steps (f : Bool) (clock : Nat → Nat) :
    (run true f clock).progressPrints
      = (((List.range cellsVisited.length).map (fun k => k + 1)).filter
          (fun n => n % 100 = 0)).map (fun n : Nat => (n : ℚ) / (total_steps : ℚ) * 100)
    ∧ total_steps = 1116 := ⟨run_prints f clock, rfl⟩

set_option maxRecDepth 100000 in
/-- C5: each cell is filled solid — every pixel of its rectangle, border
included, takes the derived color (fill and outline colors are equal) — and
in the 2000×2000 scenario with GRID_SIZE 1000 the pixel at (500, 500) equals
the computed fill color of cell (0, 0), which is not white. -/
theorem solid_fill_scenario :
    (∀ (g : Nat) (c : Canvas) (x y i j : Nat),
        x ≤ i → i ≤ x + g → y ≤ j → j ≤ y + g →
        paintCell g c (x, y) i j = colorOf x y) ∧
    (((pyRange 0 2000 1000).flatMap
        (fun x => (pyRange 0 2000 1000).map (fun y => (x, y)))).foldl
          (paintCell 1000) (fun _ _ => whiteColor)) 500 500 = colorOf 0 0 ∧
    colorOf 0 0 ≠ whiteColor := by
  refine ⟨?_, by decide, by decide⟩
  intro g c x y i j h1 h2 h3 h4
  simp [paintCell, coversCell, coversAxis, h1, h2, h3, h4]

/-- Witness for C5: the solid-fill property applied concretely to the cell at
(0, 0) and the pixel (500, 500). -/
theorem solid_fill_scenario_witness :
    (0 : Nat) ≤ 500 ∧ (500 : Nat) ≤ 0 + 1000 ∧
    paintCell 1000 (fun _ _ => whiteColor) (0, 0) 500 500 = colorOf 0 0 :=
  ⟨by decide, by decide,
    solid_fill_scenario.1 1000 (fun _ _ => whiteColor) 0 0 500 500
      (by decide) (by decide) (by decide) (by decide)⟩

/-- C6: the final raster of the drawing loop does not depend on the nesting
order of the two loops: at every pixel, the canvas produced by the source's
x-outer/y-inner iteration equals the canvas produced by the y-outer/x-inner
iteration of the same cells. -/
theorem raster_independent_of_loop_order (f : Bool) (i j : Nat) :
    (finalState f).canvas i j = fillsYX i j := by
  rw [finalState, foldl_canvas]
  exact fills_point_order_independent i j

/-- C7: font-loading failure is silently tolerated: the font reference falls
back to `none`, the run still completes with exit status 0, and its raster,
saved file and progress output are identical to those of a run whose font
loaded — only text rendering differs (no text calls are issued at all). -/
theorem font_failure_silent (clock : Nat → Nat) :
    loadFont false = none ∧
    (run true false clock).exitCode = 0 ∧
    (run true false clock).raster = (run true true clock).raster ∧
    (run true false clock).savedFile = (run true true clock).savedFile ∧
    (run true false clock).progressPrints = (run true true clock).progressPrints ∧
    (run true false clock).textOps = [] := by
  have hcanvas : (finalState false).canvas = (finalState true).canvas := by
    rw [finalState, finalState, foldl_canvas, foldl_canvas]
  refine ⟨rfl, by simp [run], ?_, by simp [run], ?_, ?_⟩
  · simp [run, loadFont, hcanvas]
  · exact (run_prints false clock).trans (run_prints true clock).symm
  · have h : (run true false clock).textOps = (finalState false).textOps := by
      simp [run, loadFont]
    rw [h, finalState, foldl_textOps]
    simp [initState]

/-- C8: with a loaded font, the label "x,y" of each visited cell is drawn
with a faux outline: twice in white at the diagonal offsets (+2, +2) and
(-2, -2) from the anchor, then once in black at the true position
(x + 50, y + 50). -/
theorem text_calls_faux_outline (clock : Nat → Nat) :
    (run true true clock).textOps
      = cellsVisited.flatMap (fun cell =>
          [⟨(cell.1 + 50 + 2, cell.2 + 50 + 2), labelOf cell.1 cell.2, "white"⟩,
           ⟨(cell.1 + 50 - 2, cell.2 + 50 - 2), labelOf cell.1 cell.2, "white"⟩,
           ⟨(cell.1 + 50, cell.2 + 50), labelOf cell.1 cell.2, "black"⟩]) := by
  have h : (run true true clock).textOps = (finalState true).textOps := by
    simp [run, loadFont]
  rw [h, finalState, foldl_textOps]
  simp [initState, textCallsFor]

/-- C9: the drawing phase is a deterministic function of the fixed constants:
two runs with the same allocation and font outcomes but arbitrary (hidden)
wall-clock inputs produce identical rasters pixel for pixel, identical text
calls, progress output, exit codes and saved files. -/
theorem runs_deterministic (a f : Bool) (clock1 clock2 : Nat → Nat) :
    (run a f clock1).raster = (run a f clock2).raster ∧
    (run a f clock1).textOps = (run a f clock2).textOps ∧
    (run a f clock1).progressPrints = (run a f clock2).progressPrints ∧
    (run a f clock1).exitCode = (run a f clock2).exitCode ∧
    (run a f clock1).savedFile = (run a f clock2).savedFile := by
  cases a <;> simp [run]

set_option maxRecDepth 100000 in
/-- C10: every progress percentage the script prints is strictly below 100:
the denominator `total_steps = (WIDTH // GRID_SIZE + 1) * (HEIGHT //
GRID_SIZE + 1) = 1116` strictly exceeds the 1050 steps the loop performs. -/
theorem progress_always_below_100 (a f : Bool) (clock : Nat → Nat) :
    total_steps = 1116 ∧ cellsVisited.length = 1050 ∧
    cellsVisited.length < total_steps ∧
    List.Forall (fun q => q < 100) (run a f clock).progressPrints := by
  have hlen : cellsVisited.length = 1050 := by rfl
  refine ⟨rfl, hlen, by rw [hlen]; norm_num [total_steps, WIDTH, HEIGHT, GRID_SIZE], ?_⟩
  cases a with
  | false => simp [run, List.Forall]
  | true =>
    rw [run_prints, progressSteps_concrete]
    have ht : (total_steps : ℚ) = 1116 := by
      norm_num [total_steps, WIDTH, HEIGHT, GRID_SIZE]
    simp only [ht, List.map_cons, List.map_nil, List.Forall]
    norm_num
